import Mathlib

/-!
Verification of the prism-ts type-mapping and code-generation core
(`src/common/type-mappings.ts`, class `TypeGenerator`).

Strings are modelled as `List Char`.  JavaScript string operations used by
the source (`toLowerCase`, `trim`, `replace(/\(\d+\)/, "")`,
`split(/[^a-zA-Z0-9]+/)`, `replace(/[^a-zA-Z0-9_]/g, "_")`, `endsWith`,
template concatenation) are embedded as executable functions on `List Char`,
restricted to the ASCII behaviour that the generator exercises.
`Record<string, …>` objects of the metadata (`schema.tables` …) are embedded
as insertion-ordered association lists, matching the documented iteration
contract of JS objects with string keys.
-/

/-- JS `\d` digit class (ASCII). -/
def isDigitChar (c : Char) : Bool := c.isDigit

/-- JS whitespace class used by `trim` and `\s` (ASCII part). -/
def isWsChar (c : Char) : Bool :=
  c = ' ' || c = '\t' || c = '\n' || c = '\r' || c = '\x0b' || c = '\x0c'

/-- JS `String.prototype.toLowerCase` (ASCII range, which is all the
generator's inputs use). -/
def jsToLower (s : List Char) : List Char := s.map Char.toLower

/-- Left part of JS `trim`. -/
def trimLeft (s : List Char) : List Char := s.dropWhile isWsChar

/-- Right part of JS `trim`. -/
def trimRight (s : List Char) : List Char := (s.reverse.dropWhile isWsChar).reverse

/-- JS `String.prototype.trim`. -/
def trimStr (s : List Char) : List Char := trimLeft (trimRight s)

/-- After `"("` and one digit: consume further digits, then require `")"`;
returns the remainder after the match.  Part of the `/\(\d+\)/` semantics. -/
def parenDigitsTail : List Char → Option (List Char)
  | [] => none
  | c :: cs =>
    if isDigitChar c then parenDigitsTail cs
    else if c = ')' then some cs
    else none

/-- Chars following a `"("`: `/\d+\)/` must match here for `/\(\d+\)/` to
match at this position. -/
def parenMatch : List Char → Option (List Char)
  | [] => none
  | c :: cs => if isDigitChar c then parenDigitsTail cs else none

/-- JS `s.replace(/\(\d+\)/, "")`: delete the leftmost occurrence of a
parenthesized digit run (non-global regex), if any. -/
def replaceFirstParen : List Char → List Char
  | [] => []
  | c :: cs =>
    if c = '(' then
      match parenMatch cs with
      | some rest => rest
      | none => c :: replaceFirstParen cs
    else c :: replaceFirstParen cs

/-- The normalization step of `mapSqlTypeToTs`:
`sqlType.toLowerCase().replace(/\(\d+\)/, "").trim()`. -/
def normalizeSql (s : List Char) : List Char :=
  trimStr (replaceFirstParen (jsToLower s))

/-- JS `s.endsWith("[]")`. -/
def endsWithBr (s : List Char) : Bool :=
  s.drop (s.length - 2) == ['[', ']']

/-- One entry of `SQL_TYPE_MAPPINGS`: an anchored regex over the normalized
type, and the TypeScript type it maps to.  (The source's `defaultValue` and
`category` fields are never read by the generator and are not modelled.) -/
structure TypeMappingEntry where
  sqlPattern : List Char → Bool
  tsType : List Char

/-- Pattern `^w$` for a literal `w`. -/
def exactPat (w : List Char) : List Char → Bool := fun s => s == w

/-- Matches `\(\d+\)` exactly (whole remainder), e.g. `"(255)"`. -/
def parenNumTail (l : List Char) : Bool :=
  match l with
  | '(' :: rest =>
    !(rest.takeWhile isDigitChar).isEmpty &&
      rest.dropWhile isDigitChar == [')']
  | _ => false

/-- Pattern `^w(\(\d+\))?$`, e.g. `/^varchar(\(\d+\))?$/`. -/
def litOptParenPat (w : List Char) : List Char → Bool := fun s =>
  s == w || (w.isPrefixOf s && parenNumTail (s.drop w.length))

/-- Matches `\(\d+,\s*\d+\)` exactly, e.g. `"(10, 2)"`. -/
def parenPairTail (l : List Char) : Bool :=
  match l with
  | '(' :: rest =>
    !(rest.takeWhile isDigitChar).isEmpty &&
      (match rest.dropWhile isDigitChar with
       | ',' :: r2 =>
         let r3 := r2.dropWhile isWsChar
         !(r3.takeWhile isDigitChar).isEmpty &&
           r3.dropWhile isDigitChar == [')']
       | _ => false)
  | _ => false

/-- Pattern `^w(\(\d+,\s*\d+\))?$`, e.g. `/^numeric(\(\d+,\s*\d+\))?$/`. -/
def litOptParenPairPat (w : List Char) : List Char → Bool := fun s =>
  s == w || (w.isPrefixOf s && parenPairTail (s.drop w.length))

/-- Matches the optional `( with(out)? time zone)?` suffix against the whole
remainder. -/
def tzTail (l : List Char) : Bool :=
  l == [] || l == " with time zone".data || l == " without time zone".data

/-- Pattern `^w(\(\d+\))?( with(out)? time zone)?$`, used for `timestamp`
and `time`. -/
def timeLikePat (w : List Char) : List Char → Bool := fun s =>
  w.isPrefixOf s &&
    (let r := s.drop w.length
     tzTail r ||
       (match r with
        | '(' :: rest =>
          !(rest.takeWhile isDigitChar).isEmpty &&
            (match rest.dropWhile isDigitChar with
             | ')' :: r2 => tzTail r2
             | _ => false)
        | _ => false))

/-- The non-fallback entries of `SQL_TYPE_MAPPINGS`, in source order. -/
def CATEGORY_MAPPINGS : List TypeMappingEntry := [
  ⟨exactPat ("smallint".data), "number".data⟩,
  ⟨exactPat ("integer".data), "number".data⟩,
  ⟨exactPat ("bigint".data), "number".data⟩,
  ⟨litOptParenPairPat ("decimal".data), "number".data⟩,
  ⟨litOptParenPairPat ("numeric".data), "number".data⟩,
  ⟨exactPat ("real".data), "number".data⟩,
  ⟨exactPat ("double precision".data), "number".data⟩,
  ⟨exactPat ("serial".data), "number".data⟩,
  ⟨exactPat ("bigserial".data), "number".data⟩,
  ⟨litOptParenPat ("varchar".data), "string".data⟩,
  ⟨litOptParenPat ("character varying".data), "string".data⟩,
  ⟨litOptParenPat ("char".data), "string".data⟩,
  ⟨exactPat ("text".data), "string".data⟩,
  ⟨exactPat ("boolean".data), "boolean".data⟩,
  ⟨exactPat ("bool".data), "boolean".data⟩,
  ⟨timeLikePat ("timestamp".data), "string".data⟩,
  ⟨exactPat ("date".data), "string".data⟩,
  ⟨timeLikePat ("time".data), "string".data⟩,
  ⟨exactPat ("uuid".data), "string".data⟩,
  ⟨exactPat ("json".data), "Record<string, unknown>".data⟩,
  ⟨exactPat ("jsonb".data), "Record<string, unknown>".data⟩,
  ⟨exactPat ("bytea".data), "string".data⟩,
  ⟨exactPat ("inet".data), "string".data⟩,
  ⟨exactPat ("cidr".data), "string".data⟩,
  ⟨exactPat ("macaddr".data), "string".data⟩,
  ⟨exactPat ("point".data), "string".data⟩,
  ⟨exactPat ("line".data), "string".data⟩,
  ⟨exactPat ("enum".data), "string".data⟩]

/-- The source's final entry `{ sqlPattern: /.*/, tsType: "unknown" }`. -/
def fallbackEntry : TypeMappingEntry := ⟨fun _ => true, "unknown".data⟩

/-- `SQL_TYPE_MAPPINGS`: category entries followed by the catch-all. -/
def SQL_TYPE_MAPPINGS : List TypeMappingEntry :=
  CATEGORY_MAPPINGS ++ [fallbackEntry]

/-- The `for (const mapping of SQL_TYPE_MAPPINGS)` loop of
`mapSqlTypeToTs`, with the `return "unknown"` that follows it. -/
def lookupTsType : List TypeMappingEntry → List Char → List Char
  | [], _ => "unknown".data
  | m :: rest, n => if m.sqlPattern n then m.tsType else lookupTsType rest n

/-- Recursion worker for `mapSqlTypeToTs`.  The fuel argument only drives
Lean's structural recursion; each array-peeling step consumes at least two
characters of the input, so `length + 1` fuel never runs out
(`mapGo_fuel_invariant` below makes this precise). -/
def mapGo : Nat → List Char → List Char
  | 0, _ => "unknown".data
  | fuel + 1, s =>
    let n := normalizeSql s
    if endsWithBr n then
      mapGo fuel (n.dropLast.dropLast) ++ "[]".data
    else if n = "jsonb".data ∨ n = "json".data then
      "Record<string, unknown>".data
    else
      lookupTsType SQL_TYPE_MAPPINGS n

/-- `TypeGenerator.mapSqlTypeToTs`: normalize; peel a trailing `[]` and
recurse, wrapping as `ArrayType` (`itemType + "[]"`); return
`JsonType.toString()` for `json`/`jsonb`; otherwise first matching entry of
`SQL_TYPE_MAPPINGS` (whose last entry is the catch-all `"unknown"`). -/
def mapSqlTypeToTs (s : List Char) : List Char := mapGo (s.length + 1) s

/-- Whether some non-fallback (category) pattern of `SQL_TYPE_MAPPINGS`
accepts the normalized form of `s`. -/
def matchesCategoryPattern (s : List Char) : Bool :=
  CATEGORY_MAPPINGS.any (fun m => m.sqlPattern (normalizeSql s))

/-- `ColumnReference` of `src/client/types.ts`. -/
structure ColumnReference where
  schema : List Char
  table : List Char
  column : List Char
deriving DecidableEq

/-- `ColumnMetadata` of `src/client/types.ts`.  The optional
`boolean | null` fields are `Option Bool` (JS truthiness: only
`some true` is truthy); `references` is truthy exactly on `some _`. -/
structure ColumnMetadata where
  name : List Char
  type : List Char
  nullable : Bool
  is_pk : Option Bool
  is_enum : Option Bool
  references : Option ColumnReference
deriving DecidableEq

/-- `TableMetadata` of `src/client/types.ts` (`ViewMetadata` is an alias). -/
structure TableMetadata where
  name : List Char
  schema : List Char
  columns : List ColumnMetadata
deriving DecidableEq

/-- `EnumMetadata` of `src/client/types.ts`. -/
structure EnumMetadata where
  name : List Char
  schema : List Char
  values : List (List Char)
deriving DecidableEq

/-- `FunctionParameter` of `src/client/types.ts`. -/
structure FunctionParameter where
  name : List Char
  type : List Char
  mode : List Char
  has_default : Bool
  default_value : Option (List Char)
deriving DecidableEq

/-- `ReturnColumn` of `src/client/types.ts`. -/
structure ReturnColumn where
  name : List Char
  type : List Char
deriving DecidableEq

/-- `FunctionMetadata` of `src/client/types.ts`. -/
structure FunctionMetadata where
  name : List Char
  schema : List Char
  type : List Char
  object_type : List Char
  description : Option (List Char)
  parameters : List FunctionParameter
  return_type : Option (List Char)
  return_columns : Option (List ReturnColumn)
  is_strict : Bool
deriving DecidableEq

/-- `SchemaMetadata` of `src/client/types.ts`; each `Record<string, T>` is
an insertion-ordered association list.  (`triggers` carry extra
`trigger_data` in the source; it is unread by the generator and omitted.) -/
structure SchemaMetadata where
  name : List Char
  tables : List (List Char × TableMetadata)
  views : List (List Char × TableMetadata)
  enums : List (List Char × EnumMetadata)
  functions : List (List Char × FunctionMetadata)
  procedures : List (List Char × FunctionMetadata)
  triggers : List (List Char × FunctionMetadata)
deriving DecidableEq

/-- `TypeGenerator.toPascalCase`'s `split(/[^a-zA-Z0-9]+/)`: pieces between
maximal runs of non-alphanumeric characters, keeping the (possibly empty)
pieces at both ends, as JS `split` does. -/
def splitNonAlnum : List Char → List (List Char)
  | [] => [[]]
  | c :: cs =>
    let rest := splitNonAlnum cs
    if c.isAlphanum then
      match rest with
      | w :: ws => (c :: w) :: ws
      | [] => [[c]]
    else
      match cs with
      | [] => [[], []]
      | d :: _ => if d.isAlphanum then [] :: rest else rest

/-- One word of `toPascalCase`:
`word.charAt(0).toUpperCase() + word.slice(1).toLowerCase()`. -/
def pascalWord : List Char → List Char
  | [] => []
  | c :: cs => c.toUpper :: jsToLower cs

/-- `TypeGenerator.toPascalCase`. -/
def toPascalCase (s : List Char) : List Char :=
  ((splitNonAlnum s).map pascalWord).flatten

/-- JS `/^[0-9]/.test(s)`. -/
def startsWithDigit : List Char → Bool
  | [] => false
  | c :: _ => isDigitChar c

/-- The reserved-word list of `sanitizeEnumValue`. -/
def RESERVED_WORDS : List (List Char) :=
  ["delete".data, "default".data, "public".data, "private".data, "enum".data]

/-- `TypeGenerator.sanitizeEnumValue`: replace every character outside
`[a-zA-Z0-9_]` with `_`; prepend `_` if the result starts with a digit;
prepend `_` if the (lowercased) result is a reserved word. -/
def sanitizeEnumValue (value : List Char) : List Char :=
  let s1 := value.map (fun c => if c.isAlphanum || c = '_' then c else '_')
  let s2 := if startsWithDigit s1 then '_' :: s1 else s1
  if jsToLower s2 ∈ RESERVED_WORDS then '_' :: s2 else s2

/-- The transformation claimed by the spec for enum identifiers: only the
character replacement and the leading-digit rule (C5's reading, and the
shared base of the reserved-word rule C10 adds on top). -/
def underscoreSanitized (value : List Char) : List Char :=
  let s1 := value.map (fun c => if c.isAlphanum || c = '_' then c else '_')
  if startsWithDigit s1 then '_' :: s1 else s1

/-- `TypeGenerator.generateEnum`. -/
def generateEnum (enumInfo : EnumMetadata) : List Char :=
  let enumName := toPascalCase enumInfo.name
  "export enum ".data ++ enumName ++ " \x7b\n".data
  ++ (enumInfo.values.map (fun value =>
        "  ".data ++ sanitizeEnumValue value ++ " = \"".data ++ value ++ "\",\n".data)).flatten
  ++ "\x7d\n".data

/-- `TypeGenerator.generateColumnComment`. -/
def generateColumnComment (column : ColumnMetadata) : List Char :=
  let comments :=
    (if column.is_pk = some true then ["Primary key".data] else [])
    ++ (match column.references with
        | some r =>
          ["References ".data ++ r.schema ++ ".".data ++ r.table ++ ".".data ++ r.column]
        | none => [])
    ++ (if column.is_enum = some true then ["Enum type".data] else [])
  List.intercalate (". ".data) comments

/-- `TypeGenerator.generateTableInterface`. -/
def generateTableInterface (table : TableMetadata) : List Char :=
  "export interface ".data ++ toPascalCase table.name ++ " \x7b\n".data
  ++ (table.columns.map (fun column =>
        (if generateColumnComment column ≠ [] then
           "  /** ".data ++ generateColumnComment column ++ " */\n".data
         else [])
        ++ "  ".data ++ column.name ++ (if column.nullable then "?".data else [])
        ++ ": ".data ++ mapSqlTypeToTs column.type ++ ";\n".data)).flatten
  ++ "\x7d\n".data

/-- `TypeGenerator.generateViewInterface` (no PK/FK comments, `View` suffix). -/
def generateViewInterface (view : TableMetadata) : List Char :=
  "export interface ".data ++ (toPascalCase view.name ++ "View".data) ++ " \x7b\n".data
  ++ (view.columns.map (fun column =>
        "  ".data ++ column.name ++ (if column.nullable then "?".data else [])
        ++ ": ".data ++ mapSqlTypeToTs column.type ++ ";\n".data)).flatten
  ++ "\x7d\n".data

/-- `TypeGenerator.generateQueryInterface`. -/
def generateQueryInterface (table : TableMetadata) : List Char :=
  "export interface ".data ++ toPascalCase table.name ++ "QueryParams \x7b\n".data
  ++ "  limit?: number;\n".data
  ++ "  offset?: number;\n".data
  ++ "  order_by?: string;\n".data
  ++ "  order_dir?: \"asc\" | \"desc\";\n".data
  ++ (table.columns.map (fun column =>
        "  ".data ++ column.name ++ "?: ".data ++ mapSqlTypeToTs column.type
        ++ " | null;\n".data)).flatten
  ++ "\x7d\n".data

/-- The guard `fn.return_type && fn.return_type.toLowerCase() !== "void"`
(JS truthiness: an absent or empty string is falsy). -/
def retTypePresent (fn : FunctionMetadata) : Bool :=
  match fn.return_type with
  | none => false
  | some rt => decide (rt ≠ []) && decide (jsToLower rt ≠ "void".data)

/-- The `<Name>Params` part of `TypeGenerator.generateFunctionTypes`. -/
def functionParamsSection (fn : FunctionMetadata) (baseName : List Char) : List Char :=
  if fn.parameters ≠ [] then
    let inputParams := fn.parameters.filter (fun param =>
      param.mode = "IN".data ∨ param.mode = "INOUT".data)
    if inputParams ≠ [] then
      "export interface ".data ++ baseName ++ "Params \x7b\n".data
      ++ (inputParams.map (fun param =>
            "  ".data ++ param.name ++ (if param.has_default then "?".data else [])
            ++ ": ".data ++ mapSqlTypeToTs param.type ++ ";\n".data)).flatten
      ++ "\x7d\n\n".data
    else []
  else []

/-- The scalar / setof-scalar result lines of `generateFunctionTypes`
(the branch where `return_columns` is absent or empty). -/
def scalarResultLine (fn : FunctionMetadata) (baseName : List Char) : List Char :=
  let resultTsType := mapSqlTypeToTs (fn.return_type.getD [])
  if fn.type = "set".data then
    "export type ".data ++ baseName ++ "Result = ".data ++ resultTsType ++ "[];\n".data
  else
    "export type ".data ++ baseName ++ "Result = ".data ++ resultTsType ++ " | null;\n".data

/-- The result part of `TypeGenerator.generateFunctionTypes`: the
`ResultRow`/`Result` branch for non-void `return_type`, else the
procedure branch (`OUT`/`INOUT` params, or the explicit `void` line). -/
def functionResultSection (fn : FunctionMetadata) (baseName : List Char) : List Char :=
  if retTypePresent fn then
    match fn.return_columns with
    | some cols =>
      if cols ≠ [] then
        "export interface ".data ++ baseName ++ "ResultRow \x7b\n".data
        ++ (cols.map (fun col =>
              "  ".data ++ col.name ++ ": ".data ++ mapSqlTypeToTs col.type ++ ";\n".data)).flatten
        ++ "\x7d\n\n".data
        ++ (if fn.type = "set".data ∨ fn.type = "table".data then
              "export type ".data ++ baseName ++ "Result = ".data ++ baseName
              ++ "ResultRow[];\n".data
            else
              "export type ".data ++ baseName ++ "Result = ".data ++ baseName
              ++ "ResultRow | null;\n".data)
      else scalarResultLine fn baseName
    | none => scalarResultLine fn baseName
  else if fn.object_type = "procedure".data ∧ retTypePresent fn = false then
    let outParams := fn.parameters.filter (fun param =>
      param.mode = "OUT".data ∨ param.mode = "INOUT".data)
    if outParams ≠ [] then
      "export interface ".data ++ baseName ++ "Result \x7b\n".data
      ++ (outParams.map (fun param =>
            "  ".data ++ param.name ++ ": ".data ++ mapSqlTypeToTs param.type ++ ";\n".data)).flatten
      ++ "\x7d\n\n".data
    else
      "export type ".data ++ baseName ++ "Result = void;\n".data
  else []

/-- `TypeGenerator.generateFunctionTypes` (default suffix is `""`). -/
def generateFunctionTypes (fn : FunctionMetadata) (suffix : List Char) : List Char :=
  let baseName := toPascalCase fn.name ++ suffix
  functionParamsSection fn baseName ++ functionResultSection fn baseName

/-- The header template of `generateSchemaTypes` up to the generation
timestamp.  The `new Date().toISOString()` the source interpolates next is
modelled as an explicit `now` argument of `generateSchemaTypes`. -/
def schemaHeaderStart (schema : SchemaMetadata) : List Char :=
  "/**\n * Generated TypeScript types for the \"".data ++ schema.name
  ++ "\" schema\n * Generated on: ".data

/-- The body of `generateSchemaTypes` after the header: table interfaces
with paired query interfaces, then views, enums, functions, and procedures
(the latter with the `"Procedure"` suffix), each section guarded by a
non-emptiness check on the corresponding mapping. -/
def schemaSections (schema : SchemaMetadata) : List Char :=
  (if schema.tables ≠ [] then
     "// Table interfaces\n".data
     ++ (schema.tables.map (fun kv =>
           generateTableInterface kv.2 ++ "\n".data
           ++ generateQueryInterface kv.2 ++ "\n".data)).flatten
   else [])
  ++ (if schema.views ≠ [] then
        "// View interfaces\n".data
        ++ (schema.views.map (fun kv => generateViewInterface kv.2 ++ "\n".data)).flatten
      else [])
  ++ (if schema.enums ≠ [] then
        "// Enum types\n".data
        ++ (schema.enums.map (fun kv => generateEnum kv.2 ++ "\n".data)).flatten
      else [])
  ++ (if schema.functions ≠ [] then
        "// Function types\n".data
        ++ (schema.functions.map (fun kv =>
              generateFunctionTypes kv.2 [] ++ "\n".data)).flatten
      else [])
  ++ (if schema.procedures ≠ [] then
        "// Procedure types\n".data
        ++ (schema.procedures.map (fun kv =>
              generateFunctionTypes kv.2 ("Procedure".data) ++ "\n".data)).flatten
      else [])

/-- `TypeGenerator.generateSchemaTypes`, with the clock reading
(`new Date().toISOString()`) made an explicit argument `now`. -/
def generateSchemaTypes (now : List Char) (schema : SchemaMetadata) : List Char :=
  schemaHeaderStart schema ++ now ++ "\n */\n\n".data ++ schemaSections schema

/-! Concrete metadata values used by the spec's scenario tests. -/

/-- The `users` table of the spec's table-declaration scenario. -/
def usersTable : TableMetadata :=
  { name := "users".data, schema := "public".data,
    columns := [
      { name := "id".data, type := "uuid".data, nullable := false,
        is_pk := some true, is_enum := some false, references := none },
      { name := "email".data, type := "varchar".data, nullable := false,
        is_pk := some false, is_enum := some false, references := none },
      { name := "bio".data, type := "text".data, nullable := true,
        is_pk := some false, is_enum := some false, references := none }] }

/-- A column that is simultaneously a primary key, a foreign key and
enum-backed, to exercise the `". "`-joined annotations. -/
def annotatedColumn : ColumnMetadata :=
  { name := "role_id".data, type := "uuid".data, nullable := false,
    is_pk := some true, is_enum := some true,
    references := some ⟨"public".data, "roles".data, "id".data⟩ }

/-- A schema with no objects at all (header-only output). -/
def emptySchema : SchemaMetadata :=
  { name := "public".data, tables := [], views := [], enums := [],
    functions := [], procedures := [], triggers := [] }

/-- The spec's `update_status` procedure: one `IN` and one `OUT`
parameter, no return type. -/
def updateStatusProc : FunctionMetadata :=
  { name := "update_status".data, schema := "public".data, type := "scalar".data,
    object_type := "procedure".data, description := none,
    parameters := [
      { name := "p_id".data, type := "uuid".data, mode := "IN".data,
        has_default := false, default_value := none },
      { name := "o_count".data, type := "integer".data, mode := "OUT".data,
        has_default := false, default_value := none }],
    return_type := none, return_columns := none, is_strict := false }

/-- The spec's `get_users` table function, but with `return_type` absent:
the configuration on which claim C2 fails. -/
def getUsersNoRet : FunctionMetadata :=
  { name := "get_users".data, schema := "public".data, type := "table".data,
    object_type := "function".data, description := none, parameters := [],
    return_type := none,
    return_columns := some [⟨"id".data, "uuid".data⟩, ⟨"username".data, "varchar".data⟩],
    is_strict := false }

/-- The spec's `get_users` table function with `return_type` present
(`record`), as the repository's own test data sets it. -/
def getUsersFn : FunctionMetadata :=
  { getUsersNoRet with return_type := some ("record".data) }

/-- The enum value `"co-op's dues"` of the spec's sanitization scenario
(the apostrophe is `Char.ofNat 39`). -/
def coOpDues : List Char :=
  ['c', 'o', '-', 'o', 'p', Char.ofNat 39, 's', ' ', 'd', 'u', 'e', 's']

/-- An enum carrying the reserved word `"delete"` as a value. -/
def enumWithDelete : EnumMetadata :=
  { name := "ops".data, schema := "public".data, values := ["delete".data] }

/-- An enum carrying `"co-op's dues"` as a value. -/
def enumWithCoOp : EnumMetadata :=
  { name := "billing".data, schema := "public".data, values := [coOpDues] }

/-! Supporting lemmas. -/

lemma jsToLower_length (s : List Char) : (jsToLower s).length = s.length := by
  simp [jsToLower]

lemma parenDigitsTail_lt : ∀ {u v : List Char}, parenDigitsTail u = some v → v.length < u.length := by
  intro u
  induction u with
  | nil => intro v h; simp [parenDigitsTail] at h
  | cons c cs IH =>
    intro v h
    simp only [parenDigitsTail] at h
    split at h
    · have := IH h
      simp only [List.length_cons]
      omega
    · split at h
      · cases h
        simp only [List.length_cons]
        omega
      · cases h

lemma parenMatch_lt {u v : List Char} (h : parenMatch u = some v) : v.length < u.length := by
  cases u with
  | nil => simp [parenMatch] at h
  | cons c cs =>
    simp only [parenMatch] at h
    split at h
    · have := parenDigitsTail_lt h
      simp only [List.length_cons]
      omega
    · cases h

lemma rf_length_le (s : List Char) : (replaceFirstParen s).length ≤ s.length := by
  induction s with
  | nil => simp [replaceFirstParen]
  | cons c cs IH =>
    simp only [replaceFirstParen]
    split
    · cases hm : parenMatch cs with
      | some rest =>
        simp only [hm]
        have := parenMatch_lt hm
        simp only [List.length_cons]
        omega
      | none =>
        simp only [hm, List.length_cons]
        omega
    · simp only [List.length_cons]
      omega

lemma rf_eq_or_lt (s : List Char) :
    replaceFirstParen s = s ∨ (replaceFirstParen s).length < s.length := by
  induction s with
  | nil => left; rfl
  | cons c cs IH =>
    simp only [replaceFirstParen]
    split
    · cases hm : parenMatch cs with
      | some rest =>
        right
        have := parenMatch_lt hm
        simp only [hm, List.length_cons]
        omega
      | none =>
        simp only [hm]
        rcases IH with h | h
        · left; rw [h]
        · right
          simp only [List.length_cons]
          omega
    · rcases IH with h | h
      · left; rw [h]
      · right
        simp only [List.length_cons]
        omega

lemma dropWhile_length_le (p : Char → Bool) (l : List Char) :
    (l.dropWhile p).length ≤ l.length := by
  induction l with
  | nil => simp
  | cons c cs IH =>
    simp only [List.dropWhile]
    split
    · simp only [List.length_cons]; omega
    · simp

lemma dropWhile_eq_self_of_length (p : Char → Bool) (l : List Char)
    (h : (l.dropWhile p).length = l.length) : l.dropWhile p = l := by
  cases l with
  | nil => rfl
  | cons c cs =>
    simp only [List.dropWhile] at h ⊢
    split at h
    · have := dropWhile_length_le p cs
      simp only [List.length_cons] at h
      exact ((by omega : False)).elim
    · rfl

lemma trimLeft_length_le (s : List Char) : (trimLeft s).length ≤ s.length :=
  dropWhile_length_le _ _

lemma trimRight_length_le (s : List Char) : (trimRight s).length ≤ s.length := by
  have := dropWhile_length_le isWsChar s.reverse
  simpa [trimRight] using this

lemma trimLeft_eq_of_length (s : List Char) (h : (trimLeft s).length = s.length) :
    trimLeft s = s :=
  dropWhile_eq_self_of_length _ _ h

lemma trimRight_eq_of_length (s : List Char) (h : (trimRight s).length = s.length) :
    trimRight s = s := by
  have h2 : (s.reverse.dropWhile isWsChar).length = s.reverse.length := by
    simpa [trimRight] using h
  have h3 := dropWhile_eq_self_of_length isWsChar s.reverse h2
  simp [trimRight, h3]

lemma normalizeSql_length_le (s : List Char) : (normalizeSql s).length ≤ s.length := by
  have h1 := trimLeft_length_le (trimRight (replaceFirstParen (jsToLower s)))
  have h2 := trimRight_length_le (replaceFirstParen (jsToLower s))
  have h3 := rf_length_le (jsToLower s)
  have h4 := jsToLower_length s
  simp only [normalizeSql, trimStr]
  omega

lemma normalized_fixed {b : List Char} (h : normalizeSql b = b) :
    jsToLower b = b ∧ replaceFirstParen b = b ∧ trimLeft b = b ∧ trimRight b = b := by
  have h' : trimLeft (trimRight (replaceFirstParen (jsToLower b))) = b := h
  have lz : (jsToLower b).length = b.length := jsToLower_length b
  have l1 : (trimLeft (trimRight (replaceFirstParen (jsToLower b)))).length = b.length := by
    rw [h']
  have l2 := trimRight_length_le (replaceFirstParen (jsToLower b))
  have l3 := rf_length_le (jsToLower b)
  have l4 := trimLeft_length_le (trimRight (replaceFirstParen (jsToLower b)))
  have hrz : replaceFirstParen (jsToLower b) = jsToLower b := by
    rcases rf_eq_or_lt (jsToLower b) with h'' | h''
    · exact h''
    · exact ((by omega : False)).elim
  rw [hrz] at h' l1 l2 l4
  have htr : trimRight (jsToLower b) = jsToLower b := by
    apply trimRight_eq_of_length
    omega
  rw [htr] at h' l1 l4
  have htl : trimLeft (jsToLower b) = jsToLower b := by
    apply trimLeft_eq_of_length
    omega
  rw [htl] at h'
  refine ⟨h', ?_, ?_, ?_⟩
  · rw [h'] at hrz; exact hrz
  · rw [h'] at htl; exact htl
  · rw [h'] at htr; exact htr

lemma parenDigitsTail_append_br (u : List Char) :
    parenDigitsTail (u ++ ['[', ']']) =
      (parenDigitsTail u).map (fun v => v ++ ['[', ']']) := by
  induction u with
  | nil => rfl
  | cons c cs IH =>
    simp only [List.cons_append, parenDigitsTail]
    split
    · exact IH
    · split <;> rfl

lemma parenMatch_append_br (u : List Char) :
    parenMatch (u ++ ['[', ']']) = (parenMatch u).map (fun v => v ++ ['[', ']']) := by
  cases u with
  | nil => rfl
  | cons c cs =>
    simp only [List.cons_append, parenMatch]
    split
    · exact parenDigitsTail_append_br cs
    · rfl

lemma rf_append_br (x : List Char) :
    replaceFirstParen (x ++ ['[', ']']) = replaceFirstParen x ++ ['[', ']'] := by
  induction x with
  | nil => rfl
  | cons c cs IH =>
    simp only [List.cons_append, replaceFirstParen]
    split
    · simp only [List.append_eq]
      rw [parenMatch_append_br]
      cases hm : parenMatch cs with
      | some rest => simp [hm]
      | none => simp [hm, IH]
    · simp [IH]

lemma trimLeft_append_br (x : List Char) :
    trimLeft (x ++ ['[', ']']) = trimLeft x ++ ['[', ']'] := by
  induction x with
  | nil => rfl
  | cons c cs IH =>
    simp only [List.cons_append, trimLeft, List.dropWhile] at IH ⊢
    split <;> simp [IH]

lemma trimRight_append_br (x : List Char) :
    trimRight (x ++ ['[', ']']) = x ++ ['[', ']'] := by
  have hws : isWsChar ']' = false := rfl
  simp [trimRight, List.reverse_append, List.dropWhile, hws]

lemma endsWithBr_append (x : List Char) : endsWithBr (x ++ ['[', ']']) = true := by
  simp only [endsWithBr, List.length_append]
  rw [show x.length + ['[', ']'].length - 2 = x.length by simp]
  rw [List.drop_left]
  rfl

lemma endsWithBr_exists {l : List Char} (h : endsWithBr l = true) :
    ∃ x, l = x ++ ['[', ']'] := by
  have h' : l.drop (l.length - 2) = ['[', ']'] := by
    simpa [endsWithBr] using h
  exact ⟨l.take (l.length - 2), by rw [← h', List.take_append_drop]⟩

lemma endsWithBr_two_le {l : List Char} (h : endsWithBr l = true) : 2 ≤ l.length := by
  obtain ⟨x, rfl⟩ := endsWithBr_exists h
  simp

lemma dropLast2_append (x : List Char) :
    ((x ++ ['[', ']']).dropLast).dropLast = x := by
  rw [show x ++ ['[', ']'] = (x ++ ['[']) ++ [']'] by simp]
  rw [List.dropLast_concat, List.dropLast_concat]

lemma mapGo_fuel_invariant : ∀ f₁ f₂ : Nat, ∀ s : List Char,
    s.length < f₁ → s.length < f₂ → mapGo f₁ s = mapGo f₂ s := by
  intro f₁
  induction f₁ with
  | zero => intro f₂ s h1 h2; omega
  | succ f IH =>
    intro f₂ s h1 h2
    cases f₂ with
    | zero => omega
    | succ g =>
      simp only [mapGo]
      by_cases hbr : endsWithBr (normalizeSql s) = true
      · simp only [hbr, if_true]
        have hn := normalizeSql_length_le s
        have h2l := endsWithBr_two_le hbr
        have hd : ((normalizeSql s).dropLast.dropLast).length = (normalizeSql s).length - 2 := by
          simp only [List.length_dropLast]
          omega
        congr 1
        apply IH
        · omega
        · omega
      · simp only [hbr]
        rfl

lemma lookupTsType_all_false : ∀ (L : List TypeMappingEntry) (n : List Char),
    (∀ m ∈ L, m.sqlPattern n = false) →
    lookupTsType (L ++ [fallbackEntry]) n = "unknown".data := by
  intro L
  induction L with
  | nil => intro n _; rfl
  | cons m rest IH =>
    intro n h
    have hm := h m (List.mem_cons_self m rest)
    simp only [List.cons_append, lookupTsType, hm]
    exact IH n (fun m' hm' => h m' (List.mem_cons_of_mem m hm'))

lemma splitNonAlnum_all_nil : ∀ (s : List Char), (∀ c ∈ s, c.isAlphanum = false) →
    ∀ w ∈ splitNonAlnum s, w = [] := by
  intro s
  induction s with
  | nil =>
    intro _ w hw
    simp only [splitNonAlnum, List.mem_singleton] at hw
    exact hw
  | cons c cs IH =>
    intro h w hw
    have hc : c.isAlphanum = false := h c (List.mem_cons_self c cs)
    simp only [splitNonAlnum, hc, Bool.false_eq_true, if_false] at hw
    cases cs with
    | nil =>
      simp only [List.mem_cons, List.not_mem_nil, or_false, List.mem_singleton] at hw
      rcases hw with hw | hw <;> exact hw
    | cons d ds =>
      have hd : d.isAlphanum = false := h d (by simp)
      simp only [hd, Bool.false_eq_true, if_false] at hw
      exact IH (fun c' hc' => h c' (List.mem_cons_of_mem c hc')) w hw

lemma flatten_pascal_nil : ∀ (ws : List (List Char)), (∀ w ∈ ws, w = []) →
    (ws.map pascalWord).flatten = [] := by
  intro ws
  induction ws with
  | nil => intro _; rfl
  | cons w rest IH =>
    intro h
    have hw : w = [] := h w (List.mem_cons_self w rest)
    simp only [List.map_cons, List.flatten_cons, hw, pascalWord]
    exact IH (fun w' hw' => h w' (List.mem_cons_of_mem w hw'))

/-! Claim theorems. -/

/-- C1 (counterexample): as stated the claim is false — `generateSchemaTypes`
interpolates `new Date().toISOString()` into its header, so two calls with
the identical `SchemaMetadata` but different clock readings produce
different strings. -/
theorem C1_counterexample :
    generateSchemaTypes ("2025-01-01T00:00:00.000Z".data) emptySchema ≠
      generateSchemaTypes ("2025-01-01T00:00:00.001Z".data) emptySchema := by
  decide

/-- C1 (amended): two calls of `generateSchemaTypes` on the same
`SchemaMetadata` agree byte-for-byte except for the interpolated generation
timestamp: each output is the fixed header prefix, then the call's clock
reading, then a common remainder determined by the schema alone (so equal
clock readings give byte-identical output). -/
theorem C1_amended (n₁ n₂ : List Char) (S : SchemaMetadata) :
    ∃ body : List Char,
      generateSchemaTypes n₁ S = schemaHeaderStart S ++ n₁ ++ body ∧
      generateSchemaTypes n₂ S = schemaHeaderStart S ++ n₂ ++ body := by
  refine ⟨"\n */\n\n".data ++ schemaSections S, ?_, ?_⟩ <;>
    simp [generateSchemaTypes, List.append_assoc]

/-- C4 (counterexample): the normalization regex is `/\(\d+\)/`, which does
not match the two-argument suffix `(10,2)`; `"numeric(10,2)"` is returned
unchanged by normalization, not shortened to `"numeric"`. -/
theorem C4_counterexample :
    normalizeSql ("numeric(10,2)".data) = "numeric(10,2)".data ∧
    normalizeSql ("numeric(10,2)".data) ≠ "numeric".data := by
  decide

/-- C4 (amended): normalization lowercases, trims, and strips a
single-number parenthesized suffix (`"  VarChar(255) "` → `"varchar"`), but
the two-argument suffix of `"numeric(10,2)"` is not stripped — it survives
normalization and is instead matched by the `numeric` pattern, so the
mapping still yields `"number"`; and a trailing `"[]"` marker is never
stripped by normalization. -/
theorem C4_amended :
    normalizeSql ("  VarChar(255) ".data) = "varchar".data ∧
    normalizeSql ("numeric(10,2)".data) = "numeric(10,2)".data ∧
    mapSqlTypeToTs ("numeric(10,2)".data) = "number".data ∧
    ∀ s : List Char, endsWithBr s = true → endsWithBr (normalizeSql s) = true := by
  refine ⟨by decide, by decide, by decide, ?_⟩
  intro s hs
  obtain ⟨x, rfl⟩ := endsWithBr_exists hs
  have h1 : jsToLower (x ++ ['[', ']']) = jsToLower x ++ ['[', ']'] := by
    simp only [jsToLower, List.map_append]
    rfl
  unfold normalizeSql trimStr
  rw [h1, rf_append_br, trimRight_append_br, trimLeft_append_br]
  exact endsWithBr_append _

/-- C5 (counterexample): member identifiers are not produced by the
character replacement and digit-prefix rules alone — the value `"delete"`
is untouched by those rules but `sanitizeEnumValue` still prepends an
underscore because it is a reserved word. -/
theorem C5_counterexample :
    underscoreSanitized ("delete".data) = "delete".data ∧
    sanitizeEnumValue ("delete".data) = "_delete".data ∧
    sanitizeEnumValue ("delete".data) ≠ underscoreSanitized ("delete".data) := by
  decide

/-- C5 (amended): the member identifier is obtained from the value by
replacing every character outside `[A-Za-z0-9_]` with `_` and prepending
`_` when the result starts with a digit, plus one further rule: another
`_` is prepended when the lowercased result is one of the five reserved
words; the member's emitted value string stays the original value, e.g.
`"co-op's dues"` gives identifier `co_op_s_dues` with the original value. -/
theorem C5_amended :
    (∀ v : List Char,
      sanitizeEnumValue v =
        (if jsToLower (underscoreSanitized v) ∈ RESERVED_WORDS then
           '_' :: underscoreSanitized v
         else underscoreSanitized v)) ∧
    sanitizeEnumValue coOpDues = "co_op_s_dues".data ∧
    generateEnum enumWithCoOp =
      "export enum Billing \x7b\n  co_op_s_dues = \"".data ++ coOpDues ++ "\",\n\x7d\n".data := by
  refine ⟨fun v => rfl, by decide, by decide⟩

/-- C8: `toPascalCase` splits on maximal non-alphanumeric runs, fully
lowercases each word before uppercasing its first character, and joins with
no separator; empty or all-delimiter input yields the empty string. -/
theorem C8_theorem :
    toPascalCase ("user_profiles".data) = "UserProfiles".data ∧
    toPascalCase ("api-keys".data) = "ApiKeys".data ∧
    toPascalCase ("CamelCaseAlready".data) = "Camelcasealready".data ∧
    toPascalCase [] = [] ∧
    ∀ s : List Char, (∀ c ∈ s, c.isAlphanum = false) → toPascalCase s = [] := by
  refine ⟨by decide, by decide, by decide, by decide, ?_⟩
  intro s h
  unfold toPascalCase
  exact flatten_pascal_nil _ (splitNonAlnum_all_nil s h)

/-- C8 (witness): the all-delimiter case of `C8_theorem` at `"--"`. -/
theorem C8_witness : toPascalCase ("--".data) = [] :=
  C8_theorem.2.2.2.2 ("--".data) (by decide)

/-- C9: `generateTableInterface` emits one field per column in column
order, optional exactly when `nullable`, typed via the type mapper, with
the `Primary key` / `References s.t.c` / `Enum type` annotations joined by
`". "`; verified structurally and on the spec's `users` scenario. -/
theorem C9_theorem :
    (∀ table : TableMetadata, generateTableInterface table =
      "export interface ".data ++ toPascalCase table.name ++ " \x7b\n".data
      ++ (table.columns.map (fun column =>
            (if generateColumnComment column ≠ [] then
               "  /** ".data ++ generateColumnComment column ++ " */\n".data
             else [])
            ++ "  ".data ++ column.name ++ (if column.nullable then "?".data else [])
            ++ ": ".data ++ mapSqlTypeToTs column.type ++ ";\n".data)).flatten
      ++ "\x7d\n".data) ∧
    generateTableInterface usersTable =
      "export interface Users \x7b\n  /** Primary key */\n  id: string;\n  email: string;\n  bio?: string;\n\x7d\n".data ∧
    generateColumnComment annotatedColumn =
      "Primary key. References public.roles.id. Enum type".data := by
  refine ⟨fun table => rfl, by decide, by decide⟩

/-- C10: beyond the character replacement and digit-prefix rules,
`sanitizeEnumValue` prepends a further underscore exactly when the
sanitized form is, case-insensitively, one of the reserved words
`delete`, `default`, `public`, `private`, `enum`; `"delete"` becomes the
member `_delete` with value `"delete"`. -/
theorem C10_theorem :
    (∀ v : List Char, jsToLower (underscoreSanitized v) ∈ RESERVED_WORDS →
       sanitizeEnumValue v = '_' :: underscoreSanitized v) ∧
    (∀ v : List Char, jsToLower (underscoreSanitized v) ∉ RESERVED_WORDS →
       sanitizeEnumValue v = underscoreSanitized v) ∧
    sanitizeEnumValue ("delete".data) = "_delete".data ∧
    generateEnum enumWithDelete =
      "export enum Ops \x7b\n  _delete = \"delete\",\n\x7d\n".data := by
  refine ⟨?_, ?_, by decide, by decide⟩
  · intro v hv
    show (if jsToLower (underscoreSanitized v) ∈ RESERVED_WORDS then
            '_' :: underscoreSanitized v else underscoreSanitized v) = _
    rw [if_pos hv]
  · intro v hv
    show (if jsToLower (underscoreSanitized v) ∈ RESERVED_WORDS then
            '_' :: underscoreSanitized v else underscoreSanitized v) = _
    rw [if_neg hv]

/-- C10 (witness): `C10_theorem` applied to the reserved word `"Default"`
(case-insensitive match). -/
theorem C10_witness : sanitizeEnumValue ("Default".data) = "_Default".data :=
  (C10_theorem.1 ("Default".data) (by decide)).trans (by decide)

/-- C2 (counterexample): with `return_columns` present and non-empty but
`return_type` absent, `generateFunctionTypes` emits nothing at all — the
`ResultRow` branch is only reached when `return_type` is present and
non-void, so the claim's "regardless of whether fn.return_type is also
present" fails. -/
theorem C2_counterexample :
    getUsersNoRet.return_columns =
      some [⟨"id".data, "uuid".data⟩, ⟨"username".data, "varchar".data⟩] ∧
    getUsersNoRet.type = "table".data ∧
    getUsersNoRet.return_type = none ∧
    generateFunctionTypes getUsersNoRet [] = [] := by
  decide

/-- C2 (amended): when `return_type` is present and non-void and
`return_columns` is present and non-empty, `generateFunctionTypes` emits,
after the parameter section, a `<Name>ResultRow` structural type with one
required (never optional) field per return column typed via the type
mapper, followed by `Result = ResultRow[]` when the function's kind is
`set` or `table` (and `ResultRow | null` otherwise). -/
theorem C2_amended (fn : FunctionMetadata) (suffix rt : List Char)
    (cols : List ReturnColumn)
    (hrt : fn.return_type = some rt) (hne : rt ≠ [])
    (hnv : jsToLower rt ≠ "void".data)
    (hcols : fn.return_columns = some cols) (hc : cols ≠ []) :
    generateFunctionTypes fn suffix =
      functionParamsSection fn (toPascalCase fn.name ++ suffix)
      ++ ("export interface ".data ++ (toPascalCase fn.name ++ suffix) ++ "ResultRow \x7b\n".data
          ++ (cols.map (fun col =>
                "  ".data ++ col.name ++ ": ".data ++ mapSqlTypeToTs col.type ++ ";\n".data)).flatten
          ++ "\x7d\n\n".data
          ++ (if fn.type = "set".data ∨ fn.type = "table".data then
                "export type ".data ++ (toPascalCase fn.name ++ suffix) ++ "Result = ".data
                ++ (toPascalCase fn.name ++ suffix) ++ "ResultRow[];\n".data
              else
                "export type ".data ++ (toPascalCase fn.name ++ suffix) ++ "Result = ".data
                ++ (toPascalCase fn.name ++ suffix) ++ "ResultRow | null;\n".data)) := by
  have hret : retTypePresent fn = true := by
    simp [retTypePresent, hrt, hne, hnv]
  unfold generateFunctionTypes functionResultSection
  rw [hret, hcols]
  simp [hc]

/-- C2 (witness): `C2_amended` on the spec's `get_users` scenario with
`return_type = "record"`, evaluated to the literal output. -/
theorem C2_witness :
    generateFunctionTypes getUsersFn [] =
      "export interface GetUsersResultRow \x7b\n  id: string;\n  username: string;\n\x7d\n\nexport type GetUsersResult = GetUsersResultRow[];\n".data :=
  (C2_amended getUsersFn [] ("record".data)
      [⟨"id".data, "uuid".data⟩, ⟨"username".data, "varchar".data⟩]
      (by decide) (by decide) (by decide) (by decide) (by decide)).trans (by decide)

/-- C3 (counterexample): `"foo[]"` matches no category pattern, yet it does
not map to the bare fallback `"unknown"` — the array check fires first and
the result is `"unknown[]"`. -/
theorem C3_counterexample :
    matchesCategoryPattern ("foo[]".data) = false ∧
    mapSqlTypeToTs ("foo[]".data) = "unknown[]".data ∧
    mapSqlTypeToTs ("foo[]".data) ≠ "unknown".data := by
  decide

/-- C3 (amended): `mapSqlTypeToTs` is a total function (it is defined for
every string, the empty string included); the empty string maps to
`"unknown"`, and every string whose normalized form neither ends in `"[]"`
nor matches any category pattern maps to the fallback `"unknown"`. -/
theorem C3_amended :
    mapSqlTypeToTs [] = "unknown".data ∧
    ∀ s : List Char, matchesCategoryPattern s = false →
      endsWithBr (normalizeSql s) = false →
      mapSqlTypeToTs s = "unknown".data := by
  refine ⟨by decide, ?_⟩
  intro s h ha
  show mapGo (s.length + 1) s = "unknown".data
  rw [show mapGo (s.length + 1) s =
      (if endsWithBr (normalizeSql s) then
         mapGo s.length ((normalizeSql s).dropLast.dropLast) ++ "[]".data
       else if normalizeSql s = "jsonb".data ∨ normalizeSql s = "json".data then
         "Record<string, unknown>".data
       else lookupTsType SQL_TYPE_MAPPINGS (normalizeSql s)) from rfl]
  rw [ha]
  simp only [Bool.false_eq_true, if_false]
  by_cases hj : normalizeSql s = "jsonb".data ∨ normalizeSql s = "json".data
  · exfalso
    have hx : matchesCategoryPattern s = true := by
      unfold matchesCategoryPattern
      rcases hj with hj | hj <;> rw [hj] <;> decide
    rw [hx] at h
    simp at h
  · rw [if_neg hj]
    have hall : ∀ m ∈ CATEGORY_MAPPINGS, m.sqlPattern (normalizeSql s) = false := by
      intro m hm
      by_contra hmm
      have hx : matchesCategoryPattern s = true := by
        unfold matchesCategoryPattern
        exact List.any_eq_true.mpr ⟨m, hm, by simpa using hmm⟩
      rw [hx] at h
      simp at h
    show lookupTsType (CATEGORY_MAPPINGS ++ [fallbackEntry]) (normalizeSql s) = "unknown".data
    exact lookupTsType_all_false CATEGORY_MAPPINGS (normalizeSql s) hall

/-- C3 (witness): `C3_amended` applied to the garbage type `"mystery"`. -/
theorem C3_witness : mapSqlTypeToTs ("mystery".data) = "unknown".data :=
  C3_amended.2 ("mystery".data) (by decide) (by decide)

/-- C6: for a procedure whose return type is absent/void, the generated
text is exactly: a `<Name>Params` interface over the `IN`/`INOUT`
parameters (optional exactly when `has_default`, omitted when there are
none), followed by a `<Name>Result` interface with one required field per
`OUT`/`INOUT` parameter, or the explicit `Result = void` declaration when
there are no output parameters. -/
theorem C6_theorem (fn : FunctionMetadata) (suffix : List Char)
    (hproc : fn.object_type = "procedure".data)
    (hnort : retTypePresent fn = false) :
    generateFunctionTypes fn suffix =
      (if fn.parameters.filter (fun param =>
            param.mode = "IN".data ∨ param.mode = "INOUT".data) ≠ [] then
         "export interface ".data ++ (toPascalCase fn.name ++ suffix) ++ "Params \x7b\n".data
         ++ ((fn.parameters.filter (fun param =>
               param.mode = "IN".data ∨ param.mode = "INOUT".data)).map (fun param =>
               "  ".data ++ param.name ++ (if param.has_default then "?".data else [])
               ++ ": ".data ++ mapSqlTypeToTs param.type ++ ";\n".data)).flatten
         ++ "\x7d\n\n".data
       else [])
      ++ (if fn.parameters.filter (fun param =>
             param.mode = "OUT".data ∨ param.mode = "INOUT".data) ≠ [] then
            "export interface ".data ++ (toPascalCase fn.name ++ suffix) ++ "Result \x7b\n".data
            ++ ((fn.parameters.filter (fun param =>
                  param.mode = "OUT".data ∨ param.mode = "INOUT".data)).map (fun param =>
                  "  ".data ++ param.name ++ ": ".data ++ mapSqlTypeToTs param.type ++ ";\n".data)).flatten
            ++ "\x7d\n\n".data
          else "export type ".data ++ (toPascalCase fn.name ++ suffix) ++ "Result = void;\n".data) := by
  unfold generateFunctionTypes functionParamsSection functionResultSection
  rw [hnort, hproc]
  by_cases hp : fn.parameters = []
  · simp [hp]
  · simp [hp]

/-- C6 (witness): `C6_theorem` on the spec's `update_status` scenario,
evaluated to the literal output. -/
theorem C6_witness :
    generateFunctionTypes updateStatusProc [] =
      "export interface UpdateStatusParams \x7b\n  p_id: string;\n\x7d\n\nexport interface UpdateStatusResult \x7b\n  o_count: number;\n\x7d\n\n".data :=
  (C6_theorem updateStatusProc [] (by decide) (by decide)).trans (by decide)

/-- C7 (counterexample): the array identity fails in general because the
recursive call re-normalizes the base type, stripping a second
parenthesized group: `"(1)integer(2)"` does not normalize to an array
type, maps to `"unknown"`, yet `"(1)integer(2)[]"` maps to `"number[]"`,
not `"unknown[]"`. -/
theorem C7_counterexample :
    endsWithBr (normalizeSql ("(1)integer(2)".data)) = false ∧
    mapSqlTypeToTs ("(1)integer(2)".data ++ "[]".data) = "number[]".data ∧
    mapSqlTypeToTs ("(1)integer(2)".data) ++ "[]".data = "unknown[]".data ∧
    mapSqlTypeToTs ("(1)integer(2)".data ++ "[]".data) ≠
      mapSqlTypeToTs ("(1)integer(2)".data) ++ "[]".data := by
  decide

/-- C7 (amended): `mapSqlTypeToTs` is total (its recursion terminates on
every string); `mapSqlTypeToTs "integer[]" = "number[]"`; and for every
base string `b` that is already in normalized form and does not end in
`"[]"`, appending `"[]"` maps to the mapped base type wrapped as an
array: `mapSqlTypeToTs (b ++ "[]") = mapSqlTypeToTs b ++ "[]"`. -/
theorem C7_amended :
    mapSqlTypeToTs ("integer[]".data) = "number[]".data ∧
    ∀ b : List Char, normalizeSql b = b → endsWithBr b = false →
      mapSqlTypeToTs (b ++ "[]".data) = mapSqlTypeToTs b ++ "[]".data := by
  refine ⟨by decide, ?_⟩
  intro b hnorm _hbr
  obtain ⟨hlow, hrf, htl, htr⟩ := normalized_fixed hnorm
  have hbrd : ("[]".data : List Char) = ['[', ']'] := rfl
  have h1 : jsToLower (b ++ ['[', ']']) = b ++ ['[', ']'] := by
    simp only [jsToLower, List.map_append]
    rw [show List.map Char.toLower b = b from hlow]
    rfl
  have hn2 : normalizeSql (b ++ ['[', ']']) = b ++ ['[', ']'] := by
    unfold normalizeSql trimStr
    rw [h1, rf_append_br, hrf, trimRight_append_br, trimLeft_append_br, htl]
  have hewb : endsWithBr (b ++ ['[', ']']) = true := endsWithBr_append b
  rw [hbrd]
  show mapGo ((b ++ ['[', ']']).length + 1) (b ++ ['[', ']']) = mapGo (b.length + 1) b ++ ['[', ']']
  rw [show mapGo ((b ++ ['[', ']']).length + 1) (b ++ ['[', ']']) =
      (if endsWithBr (normalizeSql (b ++ ['[', ']'])) then
         mapGo (b ++ ['[', ']']).length
           ((normalizeSql (b ++ ['[', ']'])).dropLast.dropLast) ++ "[]".data
       else if normalizeSql (b ++ ['[', ']']) = "jsonb".data ∨
           normalizeSql (b ++ ['[', ']']) = "json".data then
         "Record<string, unknown>".data
       else lookupTsType SQL_TYPE_MAPPINGS (normalizeSql (b ++ ['[', ']']))) from rfl]
  rw [hn2, hewb]
  simp only [if_true]
  rw [dropLast2_append]
  rw [show (b ++ ['[', ']']).length = b.length + 2 by simp]
  exact congrArg (fun t => t ++ ['[', ']'])
    (mapGo_fuel_invariant (b.length + 2) (b.length + 1) b (by omega) (by omega))

/-- C7 (witness): `C7_amended` applied at the normalized base `"integer"`. -/
theorem C7_witness :
    mapSqlTypeToTs ("integer".data ++ "[]".data) =
      mapSqlTypeToTs ("integer".data) ++ "[]".data :=
  C7_amended.2 ("integer".data) (by decide) (by decide)

/-- C4 (witness): the bracket-preservation part of `C4_amended` at
`"text[]"`. -/
theorem C4_witness : endsWithBr (normalizeSql ("text[]".data)) = true :=
  C4_amended.2.2.2 ("text[]".data) (by decide)
